import Mathlib

/-
Verification of the interactive chart state/layout engine of the
funding-platform wasm-viz crate (src/wasm-viz/src/charts/).

Modelling conventions for the shallow embedding:
  - f64 values and arithmetic are modelled exactly: as rationals where the
    source only uses field operations and comparisons, and as reals where
    the source uses sqrt, cos, sin or pi.  Decimal literals of the source
    (0.3, 0.001, ...) are taken at their decimal value.
  - the `as usize` cast of a float (which truncates and saturates at 0 for
    negative values) is modelled by floorToUsize.
  - u32 / usize counters are modelled by Nat.
  - serde deserialization of a JS payload is modelled by an Option input:
    none is a malformed payload (the source returns Err through the
    question-mark operator before touching any state).
  - canvas drawing calls are external write-only effects and are dropped;
    only the state and the returned values are modelled.
  - the uninspected serde_json metadata payload is modelled as a String,
    since the core only passes it through.
-/

/-! ## Common configuration (src/wasm-viz/src/charts/common.rs) -/

structure Padding where
  top : ℚ
  right : ℚ
  bottom : ℚ
  left : ℚ
deriving Repr, DecidableEq

structure ColorTheme where
  primary : String
  secondary : String
  success : String
  warning : String
  danger : String
  background : String
  text : String
  grid : String
  accent : List String
deriving Repr, DecidableEq

def ColorTheme.default : ColorTheme :=
  { primary := "#3B82F6", secondary := "#6B7280", success := "#10B981",
    warning := "#F59E0B", danger := "#EF4444", background := "#FFFFFF",
    text := "#1F2937", grid := "#E5E7EB",
    accent := ["#3B82F6", "#10B981", "#F59E0B", "#EF4444",
               "#8B5CF6", "#EC4899", "#06B6D4", "#84CC16"] }

structure ChartConfig where
  width : ℚ
  height : ℚ
  padding : Padding
  theme : ColorTheme
  animate : Bool
  show_grid : Bool
  show_labels : Bool
  show_legend : Bool
  font_family : String
  font_size : ℚ
deriving Repr, DecidableEq

def ChartConfig.default : ChartConfig :=
  { width := 800, height := 400,
    padding := { top := 40, right := 40, bottom := 60, left := 60 },
    theme := ColorTheme.default,
    animate := true, show_grid := true, show_labels := true, show_legend := true,
    font_family := "Inter, system-ui, sans-serif", font_size := 12 }

/-- Plot width: config.width - padding.left - padding.right. -/
def plotWidth (cfg : ChartConfig) : ℚ :=
  cfg.width - cfg.padding.left - cfg.padding.right

/-- Plot height: config.height - padding.top - padding.bottom. -/
def plotHeight (cfg : ChartConfig) : ℚ :=
  cfg.height - cfg.padding.top - cfg.padding.bottom

/-- In-place update of the element at index i, as Rust `v[i] op= ...`.
Out-of-range indices leave the list unchanged (the source never indexes
out of range on these paths, see bin_index_in_range). -/
def listModify (f : α → α) : ℕ → List α → List α
  | _, [] => []
  | 0, a :: as => f a :: as
  | n + 1, a :: as => a :: listModify f n as

/-- Rust `x as usize` on a float: truncation toward zero, saturating at 0
for negative inputs; on the nonnegative range this is the floor. -/
def floorToUsize (q : ℚ) : ℕ := (⌊q⌋ : ℤ).toNat

/-! ## Score distribution histogram (src/wasm-viz/src/charts/score_distribution.rs) -/

structure ScoreDataPoint where
  application_id : String
  reference : String
  score : ℚ
  max_score : ℚ
  assessor_count : ℕ
  variance : Option ℚ
deriving Repr, DecidableEq

structure HistogramBin where
  min : ℚ
  max : ℚ
  count : ℕ
  applications : List String
  avg_variance : ℚ
deriving Repr, DecidableEq

structure ScoreDistributionChart where
  canvas_id : String
  config : ChartConfig
  bins : List HistogramBin
  total_count : ℕ
  max_count : ℕ
  score_range : ℚ × ℚ
  hovered_bin : Option ℕ
deriving Repr, DecidableEq

/-- Normalized percentage of a record: score/max_score*100, or 0 when
max_score is not positive. -/
def normalizedPct (d : ScoreDataPoint) : ℚ :=
  if 0 < d.max_score then d.score / d.max_score * 100 else 0

/-- Bin index of a normalized percentage:
`((pct / bin_width).floor() as usize).min(bin_count - 1)`. -/
def binIndex (pct : ℚ) (bin_width : ℚ) (bin_count : ℕ) : ℕ :=
  min (floorToUsize (pct / bin_width)) (bin_count - 1)

/-- The `bin_count` empty bins covering [0,100) in equal widths. -/
def initBins (bin_count : ℕ) (bin_width : ℚ) : List HistogramBin :=
  (List.range bin_count).map (fun (i : ℕ) =>
    { min := (i : ℚ) * bin_width, max := ((i : ℚ) + 1) * bin_width,
      count := 0, applications := [], avg_variance := 0 })

/-- One record landing in a bin: count += 1, push the application id,
accumulate the variance when present. -/
def bumpBin (d : ScoreDataPoint) (b : HistogramBin) : HistogramBin :=
  { b with count := b.count + 1,
           applications := b.applications ++ [d.application_id],
           avg_variance := b.avg_variance + (match d.variance with
                                             | some v => v
                                             | none => 0) }

/-- The distribution loop of set_data over the normalized records. -/
def distributeData (bin_width : ℚ) (bin_count : ℕ)
    (data : List ScoreDataPoint) (bins : List HistogramBin) : List HistogramBin :=
  data.foldl
    (fun bs d => listModify (bumpBin d) (binIndex (normalizedPct d) bin_width bin_count) bs)
    bins

/-- The averaging loop of set_data: avg_variance /= count for non-empty bins. -/
def finalizeBins (bins : List HistogramBin) : List HistogramBin :=
  bins.map (fun b => if 0 < b.count
                     then { b with avg_variance := b.avg_variance / (b.count : ℚ) }
                     else b)

/-- ScoreDistributionChart::set_data.  A none input is a malformed payload:
the deserialization fails and the method returns Err before any mutation.
The raw min/max scores the source computes into unused locals are omitted. -/
def ScoreDistributionChart.setData (c : ScoreDistributionChart)
    (input : Option (List ScoreDataPoint)) (bin_count : ℕ) :
    ScoreDistributionChart × Except Unit Unit :=
  match input with
  | none => (c, .error ())
  | some data =>
    if data.isEmpty then
      ({ c with bins := [], total_count := 0, max_count := 0 }, .ok ())
    else
      let bin_width : ℚ := 100 / (bin_count : ℚ)
      let bins0 := initBins bin_count bin_width
      let bins1 := distributeData bin_width bin_count data bins0
      let bins2 := finalizeBins bins1
      ({ c with score_range := (0, 100),
                bins := bins2,
                total_count := data.length,
                max_count := (bins2.map (fun b => b.count)).foldl max 0 },
       .ok ())

/-! ## Variance heatmap (src/wasm-viz/src/charts/variance_heatmap.rs) -/

structure VarianceDataPoint where
  application_id : String
  reference : String
  scores : List ℚ
  assessor_names : List String
  variance : ℚ
  mean : ℚ
  flagged : Bool
deriving Repr, DecidableEq

structure CellPosition where
  row : ℕ
  col : ℕ
  x : ℚ
  y : ℚ
  width : ℚ
  height : ℚ
deriving Repr, DecidableEq

structure VarianceHeatmapChart where
  canvas_id : String
  config : ChartConfig
  data : List VarianceDataPoint
  max_assessors : ℕ
  variance_threshold : ℚ
  cell_positions : List CellPosition
  hovered_cell : Option (ℕ × ℕ)
  scroll_offset : ℚ
  visible_rows : ℕ
deriving Repr, DecidableEq

/-- `self.visible_rows.min(self.data.len())`. -/
def VarianceHeatmapChart.rowCount (c : VarianceHeatmapChart) : ℕ :=
  min c.visible_rows c.data.length

/-- `plot_height / row_count as f64`.  For an empty data set the source
divides by zero giving an IEEE infinity or NaN; the rational model gives 0.
Either way the scroll clamp below collapses to the interval [0, 0], so the
observable scroll offset agrees. -/
def VarianceHeatmapChart.cellHeight (c : VarianceHeatmapChart) : ℚ :=
  plotHeight c.config / (c.rowCount : ℚ)

/-- VarianceHeatmapChart::compute_cell_positions. -/
def VarianceHeatmapChart.computeCellPositions (c : VarianceHeatmapChart) : List CellPosition :=
  let col_count := max c.max_assessors 1
  let cell_width : ℚ := (plotWidth c.config - 100) / (col_count : ℚ)
  let cell_height := c.cellHeight
  let start_row := floorToUsize (c.scroll_offset / cell_height)
  let end_row := min (start_row + c.rowCount + 1) c.data.length
  (List.range' start_row (end_row - start_row)).flatMap (fun (row : ℕ) =>
    (List.range col_count).map (fun (col : ℕ) =>
      { row := row, col := col,
        x := c.config.padding.left + 100 + (col : ℚ) * cell_width,
        y := c.config.padding.top + ((row - start_row : ℕ) : ℚ) * cell_height,
        width := cell_width, height := cell_height }))

/-- VarianceHeatmapChart::set_data (none input = malformed payload). -/
def VarianceHeatmapChart.setData (c : VarianceHeatmapChart)
    (input : Option (List VarianceDataPoint)) :
    VarianceHeatmapChart × Except Unit Unit :=
  match input with
  | none => (c, .error ())
  | some data =>
    let c' := { c with max_assessors := (data.map (fun (d : VarianceDataPoint) => d.scores.length)).foldl max 0,
                       data := data,
                       scroll_offset := 0 }
    ({ c' with cell_positions := c'.computeCellPositions }, .ok ())

/-- VarianceHeatmapChart::on_scroll: clamp the accumulated offset into
[0, max(max_scroll, 0)] and recompute the cell layout. -/
def VarianceHeatmapChart.onScroll (c : VarianceHeatmapChart) (delta_y : ℚ) :
    VarianceHeatmapChart :=
  let cell_height := c.cellHeight
  let max_scroll : ℚ := ((c.data.length : ℚ) - (c.rowCount : ℚ)) * cell_height
  let offset := min (max (c.scroll_offset + delta_y) 0) (max max_scroll 0)
  let c' := { c with scroll_offset := offset }
  { c' with cell_positions := c'.computeCellPositions }

/-! ## Submission timeline (src/wasm-viz/src/charts/timeline.rs) -/

structure TimelineDataPoint where
  timestamp : ℚ
  count : ℕ
  cumulative : ℕ
  label : Option String
deriving Repr, DecidableEq

structure TimelineEvent where
  timestamp : ℚ
  label : String
  event_type : String
deriving Repr, DecidableEq

structure TimelineChart where
  canvas_id : String
  config : ChartConfig
  data : List TimelineDataPoint
  events : List TimelineEvent
  time_range : ℚ × ℚ
  max_count : ℕ
  max_cumulative : ℕ
  show_cumulative : Bool
  hovered_point : Option ℕ
  granularity : String
deriving Repr, DecidableEq

/-- TimelineChart::set_data.  On the non-empty path the folds of the source
seeded with plus/minus infinity compute the minimum and maximum timestamp,
modelled by folding from the head. -/
def TimelineChart.setData (c : TimelineChart)
    (input : Option (List TimelineDataPoint)) :
    TimelineChart × Except Unit Unit :=
  match input with
  | none => (c, .error ())
  | some data =>
    if data.isEmpty then
      ({ c with data := [] }, .ok ())
    else
      ({ c with time_range := (match data.map (fun d => d.timestamp) with
                               | [] => (0, 0)
                               | t :: ts => (ts.foldl min t, ts.foldl max t)),
                max_count := (data.map (fun d => d.count)).foldl max 0,
                max_cumulative := (data.map (fun d => d.cumulative)).foldl max 0,
                data := data },
       .ok ())

/-- time_range.1 - time_range.0 of the source tuple. -/
def TimelineChart.timeSpan (c : TimelineChart) : ℚ :=
  c.time_range.2 - c.time_range.1

/-- Linear projection of a timestamp onto the pixel axis. -/
def TimelineChart.projectX (c : TimelineChart) (t : ℚ) : ℚ :=
  c.config.padding.left + ((t - c.time_range.1) / c.timeSpan) * plotWidth c.config

/-- One iteration of the closest-point loop of on_mouse_move.  The
accumulator none stands for min_dist = INFINITY, closest_idx = None; the
guard `dist < min_dist` is then always true, so the source condition
`dist < min_dist && dist < 30.0` degenerates to `dist < 30.0`. -/
def timelineScanStep (x : ℚ) (acc : Option (ℕ × ℚ)) (ip : ℕ × ℚ) : Option (ℕ × ℚ) :=
  let dist := |ip.2 - x|
  match acc with
  | none => if dist < 30 then some (ip.1, dist) else none
  | some (j, d) => if dist < d ∧ dist < 30 then some (ip.1, dist) else some (j, d)

/-- TimelineChart::on_mouse_move: returns the updated chart and the index
of the hit point (none = HitTestResult::miss).  The y coordinate is
accepted and ignored, as in the source. -/
def TimelineChart.onMouseMove (c : TimelineChart) (x y : ℚ) :
    TimelineChart × Option ℕ :=
  if c.timeSpan ≤ 0 then (c, none)
  else
    let pxs := c.data.map (fun p => c.projectX p.timestamp)
    let closest := pxs.enum.foldl (timelineScanStep x) none
    ({ c with hovered_point := closest.map (fun jd => jd.1) },
     closest.map (fun jd => jd.1))

/-! ## Radial progress tracker (src/wasm-viz/src/charts/progress_tracker.rs) -/

structure ProgressSegment where
  id : String
  label : String
  completed : ℕ
  total : ℕ
  color : Option String
deriving Repr, DecidableEq

/-- The center_value field holds the string `{:.1}%` of a percentage, or
"N/A" when the grand total is zero; the model keeps the percentage itself
(none = "N/A"). -/
structure ProgressTrackerChart where
  canvas_id : String
  config : ChartConfig
  segments : List ProgressSegment
  center_label : String
  center_value : Option ℚ
  hovered_segment : Option ℕ
  animation_progress : ℝ

/-- ProgressTrackerChart::set_data. -/
noncomputable def ProgressTrackerChart.setData (c : ProgressTrackerChart)
    (input : Option (List ProgressSegment)) :
    ProgressTrackerChart × Except Unit Unit :=
  match input with
  | none => (c, .error ())
  | some segments =>
    let total_completed := (segments.map (fun s => s.completed)).sum
    let total_items := (segments.map (fun s => s.total)).sum
    ({ c with segments := segments,
              center_value := if 0 < total_items
                              then some ((total_completed : ℚ) / (total_items : ℚ) * 100)
                              else none,
              animation_progress := 0 },
     .ok ())

/-- The grand total `self.segments.iter().map(|s| s.total as f64).sum()`. -/
def progressGrandTotal (segments : List ProgressSegment) : ℝ :=
  (((segments.map (fun s => s.total)).sum : ℕ) : ℝ)

/-- The angular span of each segment in draw_donut, in input order:
`(segment.total as f64 / total) * 2.0 * PI * self.animation_progress`. -/
noncomputable def donutAngles (segments : List ProgressSegment) (anim : ℝ) : List ℝ :=
  segments.map (fun s =>
    ((s.total : ℝ) / progressGrandTotal segments) * 2 * Real.pi * anim)

/-- The value of current_angle in draw_donut when segment i is reached:
the start angle -PI/2 plus the spans of the previous segments. -/
noncomputable def donutStartAngle (segments : List ProgressSegment) (anim : ℝ) (i : ℕ) : ℝ :=
  -Real.pi / 2 + ((donutAngles segments anim).take i).sum

/-! ## Force-directed network graph (src/wasm-viz/src/charts/network_graph.rs) -/

inductive NodeType where
  | Assessor : NodeType
  | Application : NodeType
deriving Repr, DecidableEq

structure NetworkNode where
  id : String
  label : String
  node_type : NodeType
  size : Option ℝ
  color : Option String
  metadata : Option String

structure NetworkEdge where
  source : String
  target : String
  weight : Option ℝ
  color : Option String
  status : Option String

structure PhysicsNode where
  id : String
  label : String
  node_type : NodeType
  x : ℝ
  y : ℝ
  vx : ℝ
  vy : ℝ
  size : ℝ
  color : String
  fixed : Bool
  metadata : Option String

structure NetworkGraphChart where
  canvas_id : String
  config : ChartConfig
  nodes : List PhysicsNode
  edges : List NetworkEdge
  zoom : ℝ
  pan_x : ℝ
  pan_y : ℝ
  dragging_node : Option ℕ
  hovered_node : Option ℕ
  selected_nodes : List ℕ
  simulation_running : Bool
  repulsion_strength : ℝ
  attraction_strength : ℝ
  damping : ℝ
  center_gravity : ℝ

/-- NetworkGraphChart::new. -/
noncomputable def NetworkGraphChart.new (canvas_id : String) (config : ChartConfig) :
    NetworkGraphChart :=
  { canvas_id := canvas_id, config := config,
    nodes := [], edges := [],
    zoom := 1.0, pan_x := 0.0, pan_y := 0.0,
    dragging_node := none, hovered_node := none, selected_nodes := [],
    simulation_running := true,
    repulsion_strength := 500.0, attraction_strength := 0.05,
    damping := 0.9, center_gravity := 0.02 }

/-- One step of the thread-local linear congruential generator in
rand_float: `s = s.wrapping_mul(6364136223846793005).wrapping_add(1)`. -/
def lcgNext (s : ℕ) : ℕ := (s * 6364136223846793005 + 1) % 2 ^ 64

/-- The value rand_float derives from the advanced seed:
`(*s as f64) / (u64::MAX as f64)`. -/
def randValue (s : ℕ) : ℚ := (s : ℚ) / ((2 ^ 64 - 1 : ℕ) : ℚ)

/-- rand_float: advance the seed, return the value of the new seed together
with the new seed.  The source keeps the seed in a thread_local cell
initialized to 12345; the model threads it explicitly. -/
def randFloat (s : ℕ) : ℚ × ℕ :=
  let s' := lcgNext s
  (randValue s', s')

/-- The initial seed of the thread_local SEED cell. -/
def initialSeed : ℕ := 12345

/-- NetworkGraphChart::set_data.  Deserialization of the node list and then
the edge list is modelled by the two Option inputs; seed is the state of
the thread-local generator, threaded through the per-node jitter calls
(first rand_float for x, second for y, nodes in input order). -/
noncomputable def NetworkGraphChart.setData (c : NetworkGraphChart)
    (nodesInput : Option (List NetworkNode)) (edgesInput : Option (List NetworkEdge))
    (seed : ℕ) : (NetworkGraphChart × ℕ) × Except Unit Unit :=
  match nodesInput with
  | none => ((c, seed), .error ())
  | some nodes =>
    match edgesInput with
    | none => ((c, seed), .error ())
    | some edges =>
      let center_x : ℝ := (c.config.width : ℝ) / 2
      let center_y : ℝ := (c.config.height : ℝ) / 2
      let radius : ℝ := max (min (c.config.width : ℝ) (c.config.height : ℝ) / 3) 100.0
      let n := nodes.length
      let built := nodes.enum.foldl
        (fun (acc : List PhysicsNode × ℕ) (inode : ℕ × NetworkNode) =>
          let i := inode.1
          let node := inode.2
          let angle : ℝ := ((i : ℝ) / (n : ℝ)) * 2 * Real.pi
          let r : ℝ := match node.node_type with
            | NodeType.Assessor => radius * 0.4
            | NodeType.Application => radius * 0.9
          let j1 := randFloat acc.2
          let j2 := randFloat j1.2
          let p : PhysicsNode :=
            { id := node.id, label := node.label, node_type := node.node_type,
              x := center_x + r * Real.cos angle + ((j1.1 : ℝ) - 0.5) * 50.0,
              y := center_y + r * Real.sin angle + ((j2.1 : ℝ) - 0.5) * 50.0,
              vx := 0.0, vy := 0.0,
              size := node.size.getD (match node.node_type with
                                      | NodeType.Assessor => 20.0
                                      | NodeType.Application => 12.0),
              color := node.color.getD (match node.node_type with
                                        | NodeType.Assessor => c.config.theme.primary
                                        | NodeType.Application => c.config.theme.secondary),
              fixed := false, metadata := node.metadata }
          (acc.1 ++ [p], j2.2))
        ([], seed)
      (({ c with nodes := built.1, edges := edges, simulation_running := true },
        built.2),
       .ok ())

/-- The pairs (i, j) with i < j < n visited by the nested repulsion loops. -/
def repulsionPairs (n : ℕ) : List (ℕ × ℕ) :=
  (List.range n).flatMap (fun i =>
    (List.range' (i + 1) (n - (i + 1))).map (fun j => (i, j)))

/-- Indexing `self.nodes[i]` (always in range on the simulation paths). -/
def nodeAt (nodes : List PhysicsNode) (i : ℕ) : PhysicsNode :=
  nodes.getD i
    { id := "", label := "", node_type := NodeType.Assessor,
      x := 0, y := 0, vx := 0, vy := 0, size := 0, color := "",
      fixed := false, metadata := none }

/-- The repulsion loop: inverse-square force between every node pair,
distance floored at 1.0, accumulated with opposite signs on both ends. -/
noncomputable def applyRepulsion (repulsion_strength : ℝ) (nodes : List PhysicsNode)
    (forces : List (ℝ × ℝ)) : List (ℝ × ℝ) :=
  (repulsionPairs nodes.length).foldl
    (fun fs ij =>
      let ni := nodeAt nodes ij.1
      let nj := nodeAt nodes ij.2
      let dx := nj.x - ni.x
      let dy := nj.y - ni.y
      let dist_sq := dx * dx + dy * dy
      let dist := max (Real.sqrt dist_sq) 1.0
      let force := repulsion_strength / dist_sq
      let fx := (dx / dist) * force
      let fy := (dy / dist) * force
      let fs1 := listModify (fun f => (f.1 - fx, f.2 - fy)) ij.1 fs
      listModify (fun f => (f.1 + fx, f.2 + fy)) ij.2 fs1)
    forces

/-- The attraction loop: spring force along each edge whose both endpoint
ids resolve (by first match) to nodes; edges with a missing endpoint are
skipped. -/
noncomputable def applyAttraction (attraction_strength : ℝ) (nodes : List PhysicsNode)
    (edges : List NetworkEdge) (forces : List (ℝ × ℝ)) : List (ℝ × ℝ) :=
  edges.foldl
    (fun fs e =>
      match nodes.findIdx? (fun nd => nd.id = e.source),
            nodes.findIdx? (fun nd => nd.id = e.target) with
      | some s, some t =>
        let dx := (nodeAt nodes t).x - (nodeAt nodes s).x
        let dy := (nodeAt nodes t).y - (nodeAt nodes s).y
        let dist := max (Real.sqrt (dx * dx + dy * dy)) 1.0
        let weight := e.weight.getD 1.0
        let force := attraction_strength * dist * weight
        let fx := (dx / dist) * force
        let fy := (dy / dist) * force
        let fs1 := listModify (fun f => (f.1 + fx, f.2 + fy)) s fs
        listModify (fun f => (f.1 - fx, f.2 - fy)) t fs1
      | _, _ => fs)
    forces

/-- The center-gravity loop: each node is pulled toward the canvas center. -/
def applyGravity (center_gravity cx cy : ℝ) (nodes : List PhysicsNode)
    (forces : List (ℝ × ℝ)) : List (ℝ × ℝ) :=
  List.zipWith
    (fun (nd : PhysicsNode) (f : ℝ × ℝ) =>
      (f.1 + (cx - nd.x) * center_gravity, f.2 + (cy - nd.y) * center_gravity))
    nodes forces

/-- The integration loop: damped velocity update, speed clamp at 10.0,
position update, and accumulation of the pre-clamp speed into
total_movement; fixed or dragged nodes are skipped. -/
noncomputable def integrateForces (damping : ℝ) (dragging_node : Option ℕ)
    (nodes : List PhysicsNode) (forces : List (ℝ × ℝ)) : List PhysicsNode × ℝ :=
  ((nodes.zip forces).enum).foldl
    (fun (acc : List PhysicsNode × ℝ) (e : ℕ × (PhysicsNode × (ℝ × ℝ))) =>
      let i := e.1
      let nd := e.2.1
      let f := e.2.2
      if nd.fixed ∨ dragging_node = some i then (acc.1 ++ [nd], acc.2)
      else
        let vx := (nd.vx + f.1) * damping
        let vy := (nd.vy + f.2) * damping
        let speed := Real.sqrt (vx * vx + vy * vy)
        let vx' := if 10.0 < speed then (vx / speed) * 10.0 else vx
        let vy' := if 10.0 < speed then (vy / speed) * 10.0 else vy
        (acc.1 ++ [{ nd with vx := vx', vy := vy',
                             x := nd.x + vx', y := nd.y + vy' }],
         acc.2 + speed))
    ([], 0)

/-- NetworkGraphChart::step_simulation: returns the stepped chart and the
boolean the method returns.  An early false when not running or empty;
otherwise forces are accumulated, nodes integrated, and the running flag
cleared when total_movement < 0.5, returning true. -/
noncomputable def NetworkGraphChart.stepSimulation (c : NetworkGraphChart) :
    NetworkGraphChart × Bool :=
  if ¬c.simulation_running ∨ c.nodes.isEmpty then (c, false)
  else
    let center_x : ℝ := (c.config.width : ℝ) / 2
    let center_y : ℝ := (c.config.height : ℝ) / 2
    let forces0 : List (ℝ × ℝ) := List.replicate c.nodes.length (0.0, 0.0)
    let forces1 := applyRepulsion c.repulsion_strength c.nodes forces0
    let forces2 := applyAttraction c.attraction_strength c.nodes c.edges forces1
    let forces3 := applyGravity c.center_gravity center_x center_y c.nodes forces2
    let result := integrateForces c.damping c.dragging_node c.nodes forces3
    ({ c with nodes := result.1,
              simulation_running := if result.2 < 0.5 then false
                                    else c.simulation_running },
     true)

/-- NetworkGraphChart::on_zoom: multiplicative zoom clamped into [0.3, 3.0],
with the pan adjusted so the point under the cursor stays fixed. -/
noncomputable def NetworkGraphChart.onZoom (c : NetworkGraphChart)
    (delta center_x center_y : ℝ) : NetworkGraphChart :=
  let old_zoom := c.zoom
  let zoom := min (max (c.zoom * (1.0 - delta * 0.001)) 0.3) 3.0
  let zoom_change := zoom / old_zoom
  { c with zoom := zoom,
           pan_x := center_x - (center_x - c.pan_x) * zoom_change,
           pan_y := center_y - (center_y - c.pan_y) * zoom_change }

/-! ## Concrete instances used by witnesses and counterexamples -/

def appNode : NetworkNode :=
  { id := "n1", label := "N", node_type := NodeType.Application,
    size := none, color := none, metadata := none }

def settleNode : PhysicsNode :=
  { id := "n1", label := "N", node_type := NodeType.Application,
    x := 400, y := 200, vx := 0, vy := 0, size := 12, color := "#6B7280",
    fixed := false, metadata := none }

noncomputable def settleChart : NetworkGraphChart :=
  { NetworkGraphChart.new "graph" ChartConfig.default with nodes := [settleNode] }

def histWitnessData : List ScoreDataPoint :=
  [⟨"a1", "r1", 10, 100, 1, none⟩, ⟨"a2", "r2", 30, 100, 1, none⟩,
   ⟨"a3", "r3", 55, 100, 1, none⟩, ⟨"a4", "r4", 95, 100, 1, none⟩]

def histWitnessChart : ScoreDistributionChart :=
  { canvas_id := "hist", config := ChartConfig.default, bins := [],
    total_count := 0, max_count := 0, score_range := (0, 100), hovered_bin := none }

def donutWitnessSegments : List ProgressSegment :=
  [⟨"s1", "A", 1, 3, none⟩, ⟨"s2", "B", 1, 1, none⟩]

def timelineWitnessChart : TimelineChart :=
  { canvas_id := "tl", config := ChartConfig.default,
    data := [⟨0, 1, 1, none⟩, ⟨100, 2, 3, none⟩],
    events := [], time_range := (0, 100), max_count := 2, max_cumulative := 3,
    show_cumulative := true, hovered_point := none, granularity := "day" }

/-! ## Claim theorems and supporting lemmas -/

theorem heatmap_onScroll_offset_eq (c : VarianceHeatmapChart) (delta_y : ℚ) :
    (c.onScroll delta_y).scroll_offset =
      min (max (c.scroll_offset + delta_y) 0)
          (max (((c.data.length : ℚ) - (c.rowCount : ℚ)) * c.cellHeight) 0) := rfl

/-- Claim C5: for every heatmap state (including an empty data set) and
every scroll delta of any magnitude or sign, after on_scroll the scroll
offset lies in [0, max 0 ((row_count - visible_rows) * row_height)], where
row_count is the number of data rows and row_height the cell height used
by the scroll handler. -/
theorem heatmap_scroll_clamped (c : VarianceHeatmapChart) (delta_y : ℚ) :
    0 ≤ (c.onScroll delta_y).scroll_offset ∧
    (c.onScroll delta_y).scroll_offset ≤
      max 0 (((c.data.length : ℚ) - (c.visible_rows : ℚ)) * c.cellHeight) := by
  rw [heatmap_onScroll_offset_eq]
  constructor
  · exact le_min (le_max_right _ _) (le_max_right _ _)
  · refine le_trans (min_le_right _ _) (max_le ?_ (le_max_left _ _))
    rcases le_total c.visible_rows c.data.length with h | h
    · have hrc : c.rowCount = c.visible_rows := min_eq_left h
      rw [hrc]
      exact le_max_right _ _
    · have hrc : c.rowCount = c.data.length := min_eq_right h
      rw [hrc]
      simp

/-- Claim C10: NetworkGraphChart::set_data with well-formed input leaves the
zoom factor, the pan offsets, the selection, and every other field except
the node list, the edge list and the simulation-running flag unchanged. -/
theorem network_set_data_preserves_view (c : NetworkGraphChart)
    (nodes : List NetworkNode) (edges : List NetworkEdge) (seed : ℕ) :
    (((c.setData (some nodes) (some edges) seed).1).1).zoom = c.zoom ∧
    (((c.setData (some nodes) (some edges) seed).1).1).pan_x = c.pan_x ∧
    (((c.setData (some nodes) (some edges) seed).1).1).pan_y = c.pan_y ∧
    (((c.setData (some nodes) (some edges) seed).1).1).selected_nodes = c.selected_nodes ∧
    (((c.setData (some nodes) (some edges) seed).1).1).dragging_node = c.dragging_node ∧
    (((c.setData (some nodes) (some edges) seed).1).1).hovered_node = c.hovered_node ∧
    (((c.setData (some nodes) (some edges) seed).1).1).canvas_id = c.canvas_id ∧
    (((c.setData (some nodes) (some edges) seed).1).1).config = c.config ∧
    (((c.setData (some nodes) (some edges) seed).1).1).repulsion_strength = c.repulsion_strength ∧
    (((c.setData (some nodes) (some edges) seed).1).1).attraction_strength = c.attraction_strength ∧
    (((c.setData (some nodes) (some edges) seed).1).1).damping = c.damping ∧
    (((c.setData (some nodes) (some edges) seed).1).1).center_gravity = c.center_gravity := by
  refine ⟨rfl, rfl, rfl, rfl, rfl, rfl, rfl, rfl, rfl, rfl, rfl, rfl⟩

/-- Claim C8: for every chart type, set_data on a malformed payload (a
failed deserialization) returns an explicit error value and leaves the
entire prior chart state unchanged; for the network graph this holds
whichever of the two payloads fails to deserialize. -/
theorem set_data_malformed_preserves_state
    (c1 : ScoreDistributionChart) (k : ℕ)
    (c2 : VarianceHeatmapChart)
    (c3 : TimelineChart)
    (c4 : ProgressTrackerChart)
    (c5 : NetworkGraphChart) (nodes : List NetworkNode)
    (edges : List NetworkEdge) (seed : ℕ) :
    c1.setData none k = (c1, .error ()) ∧
    c2.setData none = (c2, .error ()) ∧
    c3.setData none = (c3, .error ()) ∧
    c4.setData none = (c4, .error ()) ∧
    c5.setData none (some edges) seed = ((c5, seed), .error ()) ∧
    c5.setData none none seed = ((c5, seed), .error ()) ∧
    c5.setData (some nodes) none seed = ((c5, seed), .error ()) :=
  ⟨rfl, rfl, rfl, rfl, rfl, rfl, rfl⟩

/-- Claim C9: for every score record, including negative scores, scores
exceeding max_score and non-positive max_score, the computed bin index is
below the bin count (so the indexing in the distribution loop is in
bounds), negative normalized values saturate to bin 0, and normalized
values at or above 100 clamp to bin k-1. -/
theorem bin_index_in_range (d : ScoreDataPoint) (k : ℕ) (hk : 1 ≤ k) :
    binIndex (normalizedPct d) (100 / (k : ℚ)) k < k ∧
    (normalizedPct d < 0 → binIndex (normalizedPct d) (100 / (k : ℚ)) k = 0) ∧
    (100 ≤ normalizedPct d → binIndex (normalizedPct d) (100 / (k : ℚ)) k = k - 1) := by
  have hk0 : 0 < k := hk
  have hkQ : (0 : ℚ) < (k : ℚ) := by exact_mod_cast hk0
  have hbw : (0 : ℚ) < 100 / (k : ℚ) := by positivity
  refine ⟨lt_of_le_of_lt (min_le_right _ _) (Nat.sub_lt hk0 one_pos), ?_, ?_⟩
  · intro hneg
    have hq : normalizedPct d / (100 / (k : ℚ)) < 0 := div_neg_of_neg_of_pos hneg hbw
    have hfl : ⌊normalizedPct d / (100 / (k : ℚ))⌋ < 0 := by
      rw [Int.floor_lt]
      exact_mod_cast hq
    unfold binIndex floorToUsize
    rw [Int.toNat_of_nonpos (le_of_lt hfl)]
    simp
  · intro hge
    have h2 : (k : ℚ) ≤ normalizedPct d / (100 / (k : ℚ)) := by
      rw [div_div_eq_mul_div, le_div_iff (by norm_num : (0 : ℚ) < 100)]
      nlinarith [hge, hkQ.le]
    have h3 : (k : ℤ) ≤ ⌊normalizedPct d / (100 / (k : ℚ))⌋ := by
      rw [Int.le_floor]
      exact_mod_cast h2
    have h4 : k ≤ floorToUsize (normalizedPct d / (100 / (k : ℚ))) := by
      unfold floorToUsize
      rw [Int.le_toNat (le_trans (by exact_mod_cast Nat.zero_le k) h3)]
      exact h3
    unfold binIndex
    exact min_eq_right (le_trans (Nat.sub_le k 1) h4)

theorem bin_index_in_range_witness :
    1 ≤ 4 ∧
    (binIndex (normalizedPct ⟨"a", "r", -5, 100, 1, none⟩) (100 / (4 : ℚ)) 4 < 4 ∧
     (normalizedPct ⟨"a", "r", -5, 100, 1, none⟩ < 0 →
        binIndex (normalizedPct ⟨"a", "r", -5, 100, 1, none⟩) (100 / (4 : ℚ)) 4 = 0) ∧
     (100 ≤ normalizedPct ⟨"a", "r", -5, 100, 1, none⟩ →
        binIndex (normalizedPct ⟨"a", "r", -5, 100, 1, none⟩) (100 / (4 : ℚ)) 4 = 4 - 1)) :=
  ⟨by decide, bin_index_in_range ⟨"a", "r", -5, 100, 1, none⟩ 4 (by decide)⟩

/-- Claim C2 (amended): step_simulation returns true exactly when it
performed a step, that is when the simulation was running and the node set
non-empty at entry; in particular the settling step (total movement below
0.5) still returns true after clearing the running flag, and only the
following call returns false. -/
theorem step_simulation_returns_stepped (c : NetworkGraphChart) :
    (c.stepSimulation).2 = (c.simulation_running && !c.nodes.isEmpty) := by
  by_cases hr : c.simulation_running
  · by_cases he : c.nodes.isEmpty
    · simp [NetworkGraphChart.stepSimulation, hr, he]
    · simp [NetworkGraphChart.stepSimulation, hr, he]
  · simp [NetworkGraphChart.stepSimulation, hr]

/-- Claim C3 (amended): in exact arithmetic, applying on_zoom with delta d
and then with delta -d centered on the same cursor point, when neither
application hits the [0.3, 3.0] zoom clamp, multiplies the zoom by
1 - (0.001 d)^2 and moves each pan coordinate toward the cursor by the
fraction (0.001 d)^2 of its distance; the original values are recovered
only up to this second-order error (exactly only for d = 0), and when the
clamp engages the deviation can be large. -/
theorem on_zoom_then_inverse_formula (c : NetworkGraphChart) (d cx cy : ℝ)
    (hz : 0 < c.zoom)
    (h1lo : 0.3 ≤ c.zoom * (1.0 - d * 0.001))
    (h1hi : c.zoom * (1.0 - d * 0.001) ≤ 3.0)
    (h2lo : 0.3 ≤ c.zoom * (1.0 - d * 0.001) * (1.0 + d * 0.001))
    (h2hi : c.zoom * (1.0 - d * 0.001) * (1.0 + d * 0.001) ≤ 3.0) :
    ((c.onZoom d cx cy).onZoom (-d) cx cy).zoom = c.zoom * (1 - (d * 0.001) ^ 2) ∧
    ((c.onZoom d cx cy).onZoom (-d) cx cy).pan_x
      = c.pan_x + (cx - c.pan_x) * (d * 0.001) ^ 2 ∧
    ((c.onZoom d cx cy).onZoom (-d) cx cy).pan_y
      = c.pan_y + (cy - c.pan_y) * (d * 0.001) ^ 2 := by
  have hz0 : c.zoom ≠ 0 := ne_of_gt hz
  have hz1pos : (0 : ℝ) < c.zoom * (1.0 - d * 0.001) :=
    lt_of_lt_of_le (by norm_num) h1lo
  have hz1 : c.zoom * (1.0 - d * 0.001) ≠ 0 := ne_of_gt hz1pos
  have e1zoom : (c.onZoom d cx cy).zoom = c.zoom * (1.0 - d * 0.001) := by
    simp only [NetworkGraphChart.onZoom]
    rw [max_eq_left h1lo, min_eq_left h1hi]
  have e1panx : (c.onZoom d cx cy).pan_x
      = cx - (cx - c.pan_x) * (c.zoom * (1.0 - d * 0.001) / c.zoom) := by
    simp only [NetworkGraphChart.onZoom]
    rw [max_eq_left h1lo, min_eq_left h1hi]
  have e1pany : (c.onZoom d cx cy).pan_y
      = cy - (cy - c.pan_y) * (c.zoom * (1.0 - d * 0.001) / c.zoom) := by
    simp only [NetworkGraphChart.onZoom]
    rw [max_eq_left h1lo, min_eq_left h1hi]
  have hraw2 : (c.onZoom d cx cy).zoom * (1.0 - -d * 0.001)
      = c.zoom * (1.0 - d * 0.001) * (1.0 + d * 0.001) := by
    rw [e1zoom]; ring
  have e2zoom : ((c.onZoom d cx cy).onZoom (-d) cx cy).zoom
      = c.zoom * (1.0 - d * 0.001) * (1.0 + d * 0.001) := by
    conv_lhs => rw [NetworkGraphChart.onZoom]
    rw [hraw2, max_eq_left h2lo, min_eq_left h2hi]
  refine ⟨?_, ?_, ?_⟩
  · rw [e2zoom]; ring
  · have : ((c.onZoom d cx cy).onZoom (-d) cx cy).pan_x
        = cx - (cx - (c.onZoom d cx cy).pan_x)
            * (c.zoom * (1.0 - d * 0.001) * (1.0 + d * 0.001) / (c.onZoom d cx cy).zoom) := by
      conv_lhs => rw [NetworkGraphChart.onZoom]
      rw [hraw2, max_eq_left h2lo, min_eq_left h2hi]
    rw [this, e1panx, e1zoom]
    field_simp
    ring
  · have : ((c.onZoom d cx cy).onZoom (-d) cx cy).pan_y
        = cy - (cy - (c.onZoom d cx cy).pan_y)
            * (c.zoom * (1.0 - d * 0.001) * (1.0 + d * 0.001) / (c.onZoom d cx cy).zoom) := by
      conv_lhs => rw [NetworkGraphChart.onZoom]
      rw [hraw2, max_eq_left h2lo, min_eq_left h2hi]
    rw [this, e1pany, e1zoom]
    field_simp
    ring

theorem on_zoom_then_inverse_formula_witness :
    (0 : ℝ) < (NetworkGraphChart.new "graph" ChartConfig.default).zoom ∧
    0.3 ≤ (NetworkGraphChart.new "graph" ChartConfig.default).zoom * (1.0 - 100 * 0.001) ∧
    (NetworkGraphChart.new "graph" ChartConfig.default).zoom * (1.0 - 100 * 0.001) ≤ 3.0 ∧
    0.3 ≤ (NetworkGraphChart.new "graph" ChartConfig.default).zoom * (1.0 - 100 * 0.001)
            * (1.0 + 100 * 0.001) ∧
    (NetworkGraphChart.new "graph" ChartConfig.default).zoom * (1.0 - 100 * 0.001)
            * (1.0 + 100 * 0.001) ≤ 3.0 ∧
    ((((NetworkGraphChart.new "graph" ChartConfig.default).onZoom 100 5 7).onZoom (-100) 5 7).zoom
        = (NetworkGraphChart.new "graph" ChartConfig.default).zoom * (1 - (100 * 0.001) ^ 2) ∧
     (((NetworkGraphChart.new "graph" ChartConfig.default).onZoom 100 5 7).onZoom (-100) 5 7).pan_x
        = (NetworkGraphChart.new "graph" ChartConfig.default).pan_x
          + (5 - (NetworkGraphChart.new "graph" ChartConfig.default).pan_x) * (100 * 0.001) ^ 2 ∧
     (((NetworkGraphChart.new "graph" ChartConfig.default).onZoom 100 5 7).onZoom (-100) 5 7).pan_y
        = (NetworkGraphChart.new "graph" ChartConfig.default).pan_y
          + (7 - (NetworkGraphChart.new "graph" ChartConfig.default).pan_y) * (100 * 0.001) ^ 2) := by
  have hz : (0 : ℝ) < (NetworkGraphChart.new "graph" ChartConfig.default).zoom := by
    norm_num [NetworkGraphChart.new]
  have h1lo : (0.3 : ℝ) ≤ (NetworkGraphChart.new "graph" ChartConfig.default).zoom
      * (1.0 - 100 * 0.001) := by norm_num [NetworkGraphChart.new]
  have h1hi : (NetworkGraphChart.new "graph" ChartConfig.default).zoom
      * (1.0 - 100 * 0.001) ≤ 3.0 := by norm_num [NetworkGraphChart.new]
  have h2lo : (0.3 : ℝ) ≤ (NetworkGraphChart.new "graph" ChartConfig.default).zoom
      * (1.0 - 100 * 0.001) * (1.0 + 100 * 0.001) := by norm_num [NetworkGraphChart.new]
  have h2hi : (NetworkGraphChart.new "graph" ChartConfig.default).zoom
      * (1.0 - 100 * 0.001) * (1.0 + 100 * 0.001) ≤ 3.0 := by norm_num [NetworkGraphChart.new]
  exact ⟨hz, h1lo, h1hi, h2lo, h2hi,
    on_zoom_then_inverse_formula (NetworkGraphChart.new "graph" ChartConfig.default)
      100 5 7 hz h1lo h1hi h2lo h2hi⟩

/-- Claim C3 counterexample: from the default state (zoom 1, pan (0,0)),
applying on_zoom with delta 1000 and then delta -1000 at the same cursor
point (0,0) leaves the zoom at 0.6, not at the original 1: the inverse
application does not restore the state (the error is 0.4, far beyond any
floating tolerance). -/
theorem on_zoom_inverse_counterexample :
    (((NetworkGraphChart.new "graph" ChartConfig.default).onZoom 1000 0 0).onZoom
        (-1000) 0 0).zoom = 0.6 ∧
    (NetworkGraphChart.new "graph" ChartConfig.default).zoom = 1 ∧
    (((NetworkGraphChart.new "graph" ChartConfig.default).onZoom 1000 0 0).onZoom
        (-1000) 0 0).zoom ≠ (NetworkGraphChart.new "graph" ChartConfig.default).zoom := by
  have h1 : ((NetworkGraphChart.new "graph" ChartConfig.default).onZoom 1000 0 0).zoom
      = 0.3 := by
    simp only [NetworkGraphChart.onZoom, NetworkGraphChart.new]
    norm_num [max_def, min_def]
  have h2 : (((NetworkGraphChart.new "graph" ChartConfig.default).onZoom 1000 0 0).onZoom
      (-1000) 0 0).zoom = 0.6 := by
    conv_lhs => rw [NetworkGraphChart.onZoom]
    rw [h1]
    norm_num [max_def, min_def]
  refine ⟨h2, by norm_num [NetworkGraphChart.new], ?_⟩
  rw [h2]
  norm_num [NetworkGraphChart.new]

/-- Claim C4 (amended): the jitter of set_data comes from the deterministic
linear congruential generator of rand_float, so the initial layout is a
pure function of the node and edge inputs, the chart configuration and the
generator state: two invocations of set_data with identical inputs and
identical generator seed state produce identical physics nodes (hence
identical initial positions).  Reproducibility across repeated loads in
one session fails, however, because the thread-local seed advances and is
not reset per call (see the counterexample). -/
theorem network_set_data_deterministic (c c' : NetworkGraphChart)
    (nodes : List NetworkNode) (edges : List NetworkEdge) (seed : ℕ)
    (hcfg : c.config = c'.config) :
    (((c.setData (some nodes) (some edges) seed).1).1).nodes
      = (((c'.setData (some nodes) (some edges) seed).1).1).nodes ∧
    ((c.setData (some nodes) (some edges) seed).1).2
      = ((c'.setData (some nodes) (some edges) seed).1).2 := by
  simp [NetworkGraphChart.setData, hcfg]

theorem network_set_data_deterministic_witness :
    (NetworkGraphChart.new "a" ChartConfig.default).config
      = (NetworkGraphChart.new "b" ChartConfig.default).config ∧
    ((((NetworkGraphChart.new "a" ChartConfig.default).setData
        (some [appNode]) (some []) 12345).1).1).nodes
      = ((((NetworkGraphChart.new "b" ChartConfig.default).setData
        (some [appNode]) (some []) 12345).1).1).nodes ∧
    (((NetworkGraphChart.new "a" ChartConfig.default).setData
        (some [appNode]) (some []) 12345).1).2
      = (((NetworkGraphChart.new "b" ChartConfig.default).setData
        (some [appNode]) (some []) 12345).1).2 := by
  refine ⟨rfl, ?_⟩
  exact network_set_data_deterministic
    (NetworkGraphChart.new "a" ChartConfig.default)
    (NetworkGraphChart.new "b" ChartConfig.default)
    [appNode] [] 12345 rfl

theorem setData_singleton_shape (c : NetworkGraphChart) (s : ℕ) :
    (((c.setData (some [appNode]) (some []) s).1).1).nodes.map (fun nd => nd.x)
      = [(c.config.width : ℝ) / 2
         + max (min (c.config.width : ℝ) (c.config.height : ℝ) / 3) 100.0 * 0.9
             * Real.cos (((0 : ℕ) : ℝ) / ((1 : ℕ) : ℝ) * 2 * Real.pi)
         + (((randValue (lcgNext s) : ℚ) : ℝ) - 0.5) * 50.0] ∧
    ((c.setData (some [appNode]) (some []) s).1).2 = lcgNext (lcgNext s) := by
  constructor
  · simp [NetworkGraphChart.setData, appNode, randFloat, List.enum, List.enumFrom]
  · simp [NetworkGraphChart.setData, appNode, randFloat, List.enum, List.enumFrom]

/-- Claim C4 counterexample: loading the identical single-node data twice
in sequence (the thread-local seed threading from the first call into the
second, as in the source) produces different x positions: the generator
state is not reset per call, so repeated loads of identical data are not
reproducible within a session. -/
theorem network_set_data_repeat_counterexample :
    (((((NetworkGraphChart.new "graph" ChartConfig.default).setData
        (some [appNode]) (some []) initialSeed).1).1).nodes.map (fun nd => nd.x))
      ≠ ((((((((NetworkGraphChart.new "graph" ChartConfig.default).setData
            (some [appNode]) (some []) initialSeed).1).1).setData
            (some [appNode]) (some [])
            ((((NetworkGraphChart.new "graph" ChartConfig.default).setData
                (some [appNode]) (some []) initialSeed).1).2)).1).1).nodes.map
          (fun nd => nd.x)) := by
  have hs : lcgNext initialSeed ≠ lcgNext (lcgNext (lcgNext initialSeed)) := by decide
  have hCne : (((2 ^ 64 - 1 : ℕ) : ℚ)) ≠ 0 := by norm_num
  have hq : randValue (lcgNext initialSeed)
      ≠ randValue (lcgNext (lcgNext (lcgNext initialSeed))) := by
    intro hEq
    apply hs
    unfold randValue at hEq
    rw [div_eq_div_iff hCne hCne] at hEq
    have h1 := mul_right_cancel₀ hCne hEq
    exact_mod_cast h1
  obtain ⟨hx1, hs1⟩ :=
    setData_singleton_shape (NetworkGraphChart.new "graph" ChartConfig.default) initialSeed
  have hnewcfg : (NetworkGraphChart.new "graph" ChartConfig.default).config
      = ChartConfig.default := rfl
  rw [hnewcfg] at hx1
  have hcfg : ((((NetworkGraphChart.new "graph" ChartConfig.default).setData
      (some [appNode]) (some []) initialSeed).1).1).config = ChartConfig.default := rfl
  obtain ⟨hx2, _⟩ :=
    setData_singleton_shape
      ((((NetworkGraphChart.new "graph" ChartConfig.default).setData
          (some [appNode]) (some []) initialSeed).1).1)
      ((((NetworkGraphChart.new "graph" ChartConfig.default).setData
          (some [appNode]) (some []) initialSeed).1).2)
  rw [hcfg] at hx2
  intro h
  rw [hx1, hx2, hs1] at h
  simp only [List.cons.injEq, and_true] at h
  have hj : (((randValue (lcgNext initialSeed) : ℚ) : ℝ) - 0.5) * 50.0
      = (((randValue (lcgNext (lcgNext (lcgNext initialSeed))) : ℚ) : ℝ) - 0.5) * 50.0 :=
    add_left_cancel h
  have hq50 : ((randValue (lcgNext initialSeed) : ℚ) : ℝ)
      = ((randValue (lcgNext (lcgNext (lcgNext initialSeed))) : ℚ) : ℝ) := by
    have h5 := mul_right_cancel₀ (by norm_num : (50.0 : ℝ) ≠ 0) hj
    linarith
  exact hq (Rat.cast_injective hq50)

/-- Claim C2 counterexample: the returned boolean is not false exactly when
the simulation is no longer running.  A single node resting at the canvas
center settles in this very step (total movement 0 < 0.5): the running
flag is cleared, yet the call returns true.  Conversely a running chart
with an empty node set returns false while its running flag stays true. -/
theorem step_simulation_claim_counterexample :
    ((settleChart.stepSimulation).2 = true ∧
     (settleChart.stepSimulation).1.simulation_running = false) ∧
    (((NetworkGraphChart.new "graph" ChartConfig.default).stepSimulation).2 = false ∧
     (NetworkGraphChart.new "graph" ChartConfig.default).simulation_running = true ∧
     ((NetworkGraphChart.new "graph" ChartConfig.default).stepSimulation).1.simulation_running
       = true) := by
  have hcond : ¬(¬settleChart.simulation_running ∨ settleChart.nodes.isEmpty) := by
    simp [settleChart, settleNode, NetworkGraphChart.new]
  constructor
  · constructor
    · simp only [NetworkGraphChart.stepSimulation]
      rw [if_neg hcond]
    · simp only [NetworkGraphChart.stepSimulation]
      rw [if_neg hcond]
      simp only [settleChart, settleNode, NetworkGraphChart.new, ChartConfig.default,
        applyRepulsion, repulsionPairs, applyAttraction, applyGravity, integrateForces,
        nodeAt, listModify, List.length_cons, List.length_nil, List.replicate,
        List.range_succ, List.range_zero, List.range', List.flatMap, List.map, List.foldl, List.zipWith,
        List.zip, List.zipWith_cons_cons, List.enum, List.enumFrom, List.join]
      norm_num [Real.sqrt_eq_zero']
  · refine ⟨?_, rfl, ?_⟩
    · simp [NetworkGraphChart.stepSimulation, NetworkGraphChart.new]
    · simp [NetworkGraphChart.stepSimulation, NetworkGraphChart.new]

theorem listModify_length (f : α → α) :
    ∀ (n : ℕ) (l : List α), (listModify f n l).length = l.length
  | n, [] => by cases n <;> rfl
  | 0, _ :: _ => rfl
  | n + 1, _ :: as => by simp [listModify, listModify_length f n as]

theorem listModify_getElem? (f : α → α) :
    ∀ (n : ℕ) (l : List α) (j : ℕ),
      (listModify f n l)[j]? = if n = j then l[j]?.map f else l[j]?
  | n, [], j => by cases n <;> simp [listModify]
  | 0, a :: as, 0 => by simp [listModify]
  | 0, a :: as, j + 1 => by simp [listModify]
  | n + 1, a :: as, 0 => by simp [listModify]
  | n + 1, a :: as, j + 1 => by
      have ih := listModify_getElem? f n as j
      simp only [listModify, List.getElem?_cons_succ]
      rw [ih]
      by_cases h : n = j
      · rw [if_pos h, if_pos (by omega : n + 1 = j + 1)]
      · rw [if_neg h, if_neg (by omega : ¬(n + 1 = j + 1))]

theorem map_count_listModify (d : ScoreDataPoint) :
    ∀ (i : ℕ) (bins : List HistogramBin),
      (listModify (bumpBin d) i bins).map (fun b => b.count)
        = listModify (fun cnt => cnt + 1) i (bins.map (fun b => b.count))
  | i, [] => by cases i <;> rfl
  | 0, b :: bs => rfl
  | i + 1, b :: bs => by simp [listModify, map_count_listModify d i bs]

theorem listModify_succ_sum :
    ∀ (i : ℕ) (ns : List ℕ), i < ns.length →
      (listModify (fun cnt => cnt + 1) i ns).sum = ns.sum + 1
  | 0, n :: ns, _ => by simp [listModify, List.sum_cons]; omega
  | i + 1, n :: ns, h => by
      have ih := listModify_succ_sum i ns (by simpa using h)
      simp [listModify, List.sum_cons, ih]
      omega

theorem distributeData_length (bw : ℚ) (k : ℕ) :
    ∀ (data : List ScoreDataPoint) (bins : List HistogramBin),
      (distributeData bw k data bins).length = bins.length
  | [], _ => rfl
  | d :: rest, bins => by
      have step : distributeData bw k (d :: rest) bins
          = distributeData bw k rest
              (listModify (bumpBin d) (binIndex (normalizedPct d) bw k) bins) := rfl
      rw [step, distributeData_length bw k rest _, listModify_length]

theorem distributeData_counts (bw : ℚ) (k : ℕ) :
    ∀ (data : List ScoreDataPoint) (bins : List HistogramBin) (j : ℕ),
      ((distributeData bw k data bins).map (fun b => b.count))[j]?
        = ((bins.map (fun b => b.count))[j]?).map
            (fun cnt => cnt + data.countP (fun d => binIndex (normalizedPct d) bw k == j))
  | [], bins, j => by
      cases hx : (bins.map (fun b => b.count))[j]? <;> simp [distributeData, hx]
  | d :: rest, bins, j => by
      have step : distributeData bw k (d :: rest) bins
          = distributeData bw k rest
              (listModify (bumpBin d) (binIndex (normalizedPct d) bw k) bins) := rfl
      rw [step, distributeData_counts bw k rest _ j, map_count_listModify,
        listModify_getElem?]
      by_cases hij : binIndex (normalizedPct d) bw k = j
      · rcases hx : (bins.map (fun b => b.count))[j]? with _ | cnt
        · simp [hij, hx]
        · simp [hij, hx, List.countP_cons]
          omega
      · rcases hx : (bins.map (fun b => b.count))[j]? with _ | cnt
        · simp [hij, hx]
        · simp [hij, hx, List.countP_cons]

theorem distributeData_sum (bw : ℚ) (k : ℕ) (hk : 1 ≤ k) :
    ∀ (data : List ScoreDataPoint) (bins : List HistogramBin), bins.length = k →
      ((distributeData bw k data bins).map (fun b => b.count)).sum
        = (bins.map (fun b => b.count)).sum + data.length
  | [], bins, _ => by simp [distributeData]
  | d :: rest, bins, hlen => by
      have hidx : binIndex (normalizedPct d) bw k < bins.length := by
        rw [hlen]
        exact lt_of_le_of_lt (min_le_right _ _) (Nat.sub_lt hk one_pos)
      have hlen' : (listModify (bumpBin d) (binIndex (normalizedPct d) bw k) bins).length
          = k := by rw [listModify_length]; exact hlen
      have step : distributeData bw k (d :: rest) bins
          = distributeData bw k rest
              (listModify (bumpBin d) (binIndex (normalizedPct d) bw k) bins) := rfl
      rw [step, distributeData_sum bw k hk rest _ hlen', map_count_listModify,
        listModify_succ_sum _ _ (by rw [List.length_map]; exact hidx)]
      simp [List.length_cons]
      omega

theorem finalizeBins_counts (bins : List HistogramBin) :
    (finalizeBins bins).map (fun b => b.count) = bins.map (fun b => b.count) := by
  induction bins with
  | nil => rfl
  | cons b bs ih =>
      simp only [finalizeBins, List.map_cons] at ih ⊢
      rw [ih]
      congr 1
      split <;> rfl

theorem finalizeBins_length (bins : List HistogramBin) :
    (finalizeBins bins).length = bins.length := by
  simp [finalizeBins]

theorem initBins_length (k : ℕ) (bw : ℚ) : (initBins k bw).length = k := by
  unfold initBins
  rw [List.length_map, List.length_range]

theorem initBins_counts_getElem? (k : ℕ) (bw : ℚ) (j : ℕ) (hj : j < k) :
    ((initBins k bw).map (fun b => b.count))[j]? = some 0 := by
  unfold initBins
  rw [List.map_map, List.getElem?_map, List.getElem?_range hj]
  rfl

theorem initBins_counts_sum (k : ℕ) (bw : ℚ) :
    ((initBins k bw).map (fun b => b.count)).sum = 0 := by
  unfold initBins
  rw [List.map_map]
  apply List.sum_eq_zero
  intro x hx
  rcases List.mem_map.mp hx with ⟨i, _, rfl⟩
  rfl

/-- Claim C1: after a successful set_data on a non-empty record list with
bin count k at least 1, there are k bins, the count of bin j is exactly
the number of records whose normalized score maps to index j under the
floor-divide-and-clamp formula (each record lands in exactly one bin), and
the bin counts sum to the number of input records. -/
theorem score_setData_bin_partition (c : ScoreDistributionChart)
    (data : List ScoreDataPoint) (k : ℕ) (hne : data ≠ []) (hk : 1 ≤ k) :
    ((((c.setData (some data) k).1).bins.map (fun b => b.count)).sum = data.length) ∧
    (((c.setData (some data) k).1).bins.length = k) ∧
    (∀ j, j < k →
      (((c.setData (some data) k).1).bins.map (fun b => b.count))[j]?
        = some (data.countP
            (fun d => binIndex (normalizedPct d) (100 / (k : ℚ)) k == j))) := by
  have hemp : data.isEmpty = false := by
    cases data with
    | nil => exact absurd rfl hne
    | cons a l => rfl
  have hbins : ((c.setData (some data) k).1).bins
      = finalizeBins (distributeData (100 / (k : ℚ)) k data (initBins k (100 / (k : ℚ)))) := by
    simp [ScoreDistributionChart.setData, hemp]
  refine ⟨?_, ?_, ?_⟩
  · rw [hbins, finalizeBins_counts,
      distributeData_sum (100 / (k : ℚ)) k hk data _ (initBins_length k _),
      initBins_counts_sum, Nat.zero_add]
  · rw [hbins, finalizeBins_length, distributeData_length, initBins_length]
  · intro j hj
    rw [hbins, finalizeBins_counts, distributeData_counts,
      initBins_counts_getElem? k _ j hj]
    simp

theorem score_setData_bin_partition_witness :
    histWitnessData ≠ [] ∧ 1 ≤ 4 ∧
    (((((histWitnessChart.setData (some histWitnessData) 4).1).bins.map
        (fun b => b.count)).sum = histWitnessData.length) ∧
     (((histWitnessChart.setData (some histWitnessData) 4).1).bins.length = 4) ∧
     (∀ j, j < 4 →
       (((histWitnessChart.setData (some histWitnessData) 4).1).bins.map
           (fun b => b.count))[j]?
         = some (histWitnessData.countP
             (fun d => binIndex (normalizedPct d) (100 / (4 : ℚ)) 4 == j)))) :=
  ⟨by decide, by decide,
   score_setData_bin_partition histWitnessChart histWitnessData 4 (by decide) (by decide)⟩

theorem donutAngles_getElem? (segments : List ProgressSegment) (anim : ℝ) (j : ℕ) :
    (donutAngles segments anim)[j]?
      = (segments[j]?).map (fun s =>
          ((s.total : ℝ) / progressGrandTotal segments) * 2 * Real.pi * anim) := by
  unfold donutAngles
  rw [List.getElem?_map]

/-- Claim C6: for a non-empty segment list with positive grand total, in
the fully animated state (animation_progress = 1) the angular span of each
segment equals its share total/grand_total of the full circle, the spans
are laid out consecutively in input order starting at the top (-pi/2), and
the spans sum to exactly 2 pi. -/
theorem donut_angles_partition (segments : List ProgressSegment) (anim : ℝ)
    (htot : 0 < (segments.map (fun s => s.total)).sum) (hanim : anim = 1) :
    (∀ (j : ℕ), (donutAngles segments anim)[j]?
        = (segments[j]?).map (fun (s : ProgressSegment) =>
            ((s.total : ℝ) / progressGrandTotal segments) * (2 * Real.pi))) ∧
    (donutStartAngle segments anim 0 = -Real.pi / 2 ∧
     ∀ j, j < segments.length →
       donutStartAngle segments anim (j + 1)
         = donutStartAngle segments anim j + (donutAngles segments anim).getD j 0) ∧
    (donutAngles segments anim).sum = 2 * Real.pi := by
  subst hanim
  have hT : progressGrandTotal segments ≠ 0 := by
    unfold progressGrandTotal
    exact_mod_cast htot.ne'
  refine ⟨?_, ⟨?_, ?_⟩, ?_⟩
  · intro j
    rw [donutAngles_getElem?]
    cases hx : segments[j]? with
    | none => rfl
    | some s => simp [hx]; ring
  · unfold donutStartAngle
    simp
  · intro j hj
    have hjlen : j < (donutAngles segments 1).length := by
      unfold donutAngles
      rw [List.length_map]
      exact hj
    unfold donutStartAngle
    rw [List.sum_take_succ (donutAngles segments 1) j hjlen]
    rw [List.getD_eq_getElem (donutAngles segments 1) 0 hjlen]
    ring
  · unfold donutAngles
    have hfun : (fun (s : ProgressSegment) =>
        ((s.total : ℝ) / progressGrandTotal segments) * 2 * Real.pi * 1)
        = (fun (s : ProgressSegment) =>
            (s.total : ℝ) * (2 * Real.pi / progressGrandTotal segments)) := by
      funext s
      field_simp
      ring
    rw [hfun, List.sum_map_mul_right]
    have hcast : (List.map (fun (s : ProgressSegment) => ((s.total : ℝ))) segments).sum
        = (((List.map (fun (s : ProgressSegment) => s.total) segments).sum : ℕ) : ℝ) := by
      rw [Nat.cast_list_sum, List.map_map]
      rfl
    rw [hcast]
    unfold progressGrandTotal
    field_simp
    have hS : ((((List.map (fun (s : ProgressSegment) => s.total) segments).sum : ℕ)) : ℝ)
        ≠ 0 := by exact_mod_cast htot.ne'
    rw [show (List.map (Nat.cast ∘ fun (s : ProgressSegment) => s.total) segments).sum
        = (((List.map (fun (s : ProgressSegment) => s.total) segments).sum : ℕ) : ℝ) by
          rw [Nat.cast_list_sum, List.map_map]]
    exact mul_div_cancel_left₀ _ hS

theorem donut_angles_partition_witness :
    0 < (donutWitnessSegments.map (fun s => s.total)).sum ∧
    ((∀ (j : ℕ), (donutAngles donutWitnessSegments 1)[j]?
        = (donutWitnessSegments[j]?).map (fun (s : ProgressSegment) =>
            ((s.total : ℝ) / progressGrandTotal donutWitnessSegments) * (2 * Real.pi))) ∧
     (donutStartAngle donutWitnessSegments 1 0 = -Real.pi / 2 ∧
      ∀ j, j < donutWitnessSegments.length →
        donutStartAngle donutWitnessSegments 1 (j + 1)
          = donutStartAngle donutWitnessSegments 1 j
            + (donutAngles donutWitnessSegments 1).getD j 0) ∧
     (donutAngles donutWitnessSegments 1).sum = 2 * Real.pi) :=
  ⟨by decide, donut_angles_partition donutWitnessSegments 1 (by decide) rfl⟩

theorem timelineScanStep_none (x : ℚ) (acc : Option (ℕ × ℚ)) (p : ℕ × ℚ) :
    timelineScanStep x acc p = none ↔ acc = none ∧ ¬(|p.2 - x| < 30) := by
  cases acc with
  | none =>
      simp only [timelineScanStep]
      split <;> simp_all
  | some jd =>
      obtain ⟨j, d⟩ := jd
      simp only [timelineScanStep]
      split <;> simp

theorem timelineScanStep_some_lt30 (x : ℚ) (acc : Option (ℕ × ℚ)) (p : ℕ × ℚ)
    (hacc : ∀ j d, acc = some (j, d) → d < 30) :
    ∀ j d, timelineScanStep x acc p = some (j, d) → d < 30 := by
  intro j d h
  cases acc with
  | none =>
      simp only [timelineScanStep] at h
      split at h
      · next hd =>
          simp only [Option.some.injEq, Prod.mk.injEq] at h
          exact h.2 ▸ hd
      · exact absurd h (by simp)
  | some jd =>
      obtain ⟨j0, d0⟩ := jd
      simp only [timelineScanStep] at h
      split at h
      · next hd =>
          simp only [Option.some.injEq, Prod.mk.injEq] at h
          exact h.2 ▸ hd.2
      · simp only [Option.some.injEq, Prod.mk.injEq] at h
        exact h.2 ▸ hacc j0 d0 rfl

theorem timelineScan_some_lt30 (x : ℚ) :
    ∀ (ps : List (ℕ × ℚ)) (acc : Option (ℕ × ℚ)),
      (∀ j d, acc = some (j, d) → d < 30) →
      ∀ j d, ps.foldl (timelineScanStep x) acc = some (j, d) → d < 30
  | [], _, hacc => hacc
  | p :: ps, acc, hacc => by
      rw [List.foldl_cons]
      exact timelineScan_some_lt30 x ps _ (timelineScanStep_some_lt30 x acc p hacc)

theorem timelineScan_none_iff (x : ℚ) :
    ∀ (ps : List (ℕ × ℚ)) (acc : Option (ℕ × ℚ)),
      ps.foldl (timelineScanStep x) acc = none
        ↔ acc = none ∧ ∀ p ∈ ps, ¬(|p.2 - x| < 30)
  | [], acc => by simp
  | p :: ps, acc => by
      rw [List.foldl_cons, timelineScan_none_iff x ps, timelineScanStep_none]
      constructor
      · rintro ⟨⟨h1, h2⟩, h3⟩
        refine ⟨h1, ?_⟩
        intro q hq
        rcases List.mem_cons.mp hq with rfl | hq'
        · exact h2
        · exact h3 q hq'
      · rintro ⟨h1, h2⟩
        exact ⟨⟨h1, h2 p (List.mem_cons_self p ps)⟩,
          fun q hq => h2 q (List.mem_cons_of_mem p hq)⟩

theorem timelineScanStep_d_le (x : ℚ) (j0 : ℕ) (d0 : ℚ) (p : ℕ × ℚ) :
    ∀ j d, timelineScanStep x (some (j0, d0)) p = some (j, d) → d ≤ d0 := by
  intro j d h
  simp only [timelineScanStep] at h
  split at h
  · next hd =>
      simp only [Option.some.injEq, Prod.mk.injEq] at h
      exact h.2 ▸ le_of_lt hd.1
  · simp only [Option.some.injEq, Prod.mk.injEq] at h
    exact h.2 ▸ le_rfl

theorem timelineScanStep_idx (x : ℚ) (j0 : ℕ) (d0 : ℚ) (p : ℕ × ℚ) :
    ∀ j d, timelineScanStep x (some (j0, d0)) p = some (j, d) → j = p.1 ∨ j = j0 := by
  intro j d h
  simp only [timelineScanStep] at h
  split at h
  · simp only [Option.some.injEq, Prod.mk.injEq] at h
    exact Or.inl h.1.symm
  · simp only [Option.some.injEq, Prod.mk.injEq] at h
    exact Or.inr h.1.symm

theorem timelineScan_d_le (x : ℚ) :
    ∀ (ps : List (ℕ × ℚ)) (j0 : ℕ) (d0 : ℚ) (j : ℕ) (d : ℚ),
      ps.foldl (timelineScanStep x) (some (j0, d0)) = some (j, d) → d ≤ d0
  | [], j0, d0, j, d => by
      intro h
      simp only [List.foldl_nil, Option.some.injEq, Prod.mk.injEq] at h
      exact h.2 ▸ le_rfl
  | p :: ps, j0, d0, j, d => by
      intro h
      rw [List.foldl_cons] at h
      rcases hstep : timelineScanStep x (some (j0, d0)) p with _ | ⟨j1, d1⟩
      · have := (timelineScanStep_none x _ p).mp hstep
        exact absurd this.1 (by simp)
      · rw [hstep] at h
        exact le_trans (timelineScan_d_le x ps j1 d1 j d h)
          (timelineScanStep_d_le x j0 d0 p j1 d1 hstep)

theorem timelineScanStep_d_lt (x : ℚ) (j0 : ℕ) (d0 : ℚ) (p : ℕ × ℚ) :
    ∀ j d, timelineScanStep x (some (j0, d0)) p = some (j, d) → j ≠ j0 → d < d0 := by
  intro j d h hne
  simp only [timelineScanStep] at h
  split at h
  · next hd =>
      simp only [Option.some.injEq, Prod.mk.injEq] at h
      exact h.2 ▸ hd.1
  · simp only [Option.some.injEq, Prod.mk.injEq] at h
    exact absurd h.1.symm hne

theorem timelineScan_d_lt (x : ℚ) :
    ∀ (ps : List (ℕ × ℚ)) (j0 : ℕ) (d0 : ℚ) (j : ℕ) (d : ℚ),
      ps.foldl (timelineScanStep x) (some (j0, d0)) = some (j, d) → j ≠ j0 → d < d0
  | [], j0, d0, j, d => by
      intro h hne
      simp only [List.foldl_nil, Option.some.injEq, Prod.mk.injEq] at h
      exact absurd h.1.symm hne
  | p :: ps, j0, d0, j, d => by
      intro h hne
      rw [List.foldl_cons] at h
      rcases hstep : timelineScanStep x (some (j0, d0)) p with _ | ⟨j1, d1⟩
      · have := (timelineScanStep_none x _ p).mp hstep
        exact absurd this.1 (by simp)
      · rw [hstep] at h
        by_cases hj1 : j = j1
        · have hj10 : j1 ≠ j0 := fun e => hne (hj1.trans e)
          exact lt_of_le_of_lt (timelineScan_d_le x ps j1 d1 j d h)
            (timelineScanStep_d_lt x j0 d0 p j1 d1 hstep hj10)
        · exact lt_of_lt_of_le (timelineScan_d_lt x ps j1 d1 j d h hj1)
            (timelineScanStep_d_le x j0 d0 p j1 d1 hstep)

theorem timelineScanStep_min (x : ℚ) (acc : Option (ℕ × ℚ)) (p : ℕ × ℚ)
    (hp : |p.2 - x| < 30) :
    ∀ j d, timelineScanStep x acc p = some (j, d) → d ≤ |p.2 - x| := by
  intro j d h
  cases acc with
  | none =>
      simp only [timelineScanStep] at h
      rw [if_pos hp] at h
      simp only [Option.some.injEq, Prod.mk.injEq] at h
      exact h.2 ▸ le_rfl
  | some jd =>
      obtain ⟨j0, d0⟩ := jd
      simp only [timelineScanStep] at h
      split at h
      · simp only [Option.some.injEq, Prod.mk.injEq] at h
        exact h.2 ▸ le_rfl
      · next hnd =>
          simp only [Option.some.injEq, Prod.mk.injEq] at h
          have hd0 : d0 ≤ |p.2 - x| :=
            le_of_not_lt (fun hlt => hnd ⟨hlt, hp⟩)
          exact h.2 ▸ hd0

theorem timelineScan_min (x : ℚ) :
    ∀ (ps : List (ℕ × ℚ)) (acc : Option (ℕ × ℚ)),
      (∀ j d, acc = some (j, d) → d < 30) →
      ∀ j d, ps.foldl (timelineScanStep x) acc = some (j, d) →
      ∀ p ∈ ps, d ≤ |p.2 - x|
  | [], _, _ => by
      intro j d _ p hp
      cases hp
  | p :: ps, acc, hacc => by
      intro j d h q hq
      rw [List.foldl_cons] at h
      have hacc' : ∀ j1 d1, timelineScanStep x acc p = some (j1, d1) → d1 < 30 :=
        timelineScanStep_some_lt30 x acc p hacc
      rcases List.mem_cons.mp hq with rfl | hq'
      · by_cases hp30 : |q.2 - x| < 30
        · rcases hstep : timelineScanStep x acc q with _ | ⟨j1, d1⟩
          · have := (timelineScanStep_none x acc q).mp hstep
            exact absurd hp30 this.2
          · rw [hstep] at h
            exact le_trans (timelineScan_d_le x ps j1 d1 j d h)
              (timelineScanStep_min x acc q hp30 j1 d1 hstep)
        · have hd30 : d < 30 := timelineScan_some_lt30 x ps _ hacc' j d h
          linarith [le_of_not_lt hp30]
      · exact timelineScan_min x ps _ hacc' j d h q hq'

theorem timelineScan_mem (x : ℚ) :
    ∀ (ps : List (ℕ × ℚ)) (acc : Option (ℕ × ℚ)) (j : ℕ) (d : ℚ),
      ps.foldl (timelineScanStep x) acc = some (j, d) →
      acc = some (j, d) ∨ ∃ p ∈ ps, p.1 = j ∧ |p.2 - x| = d
  | [], acc, j, d => by
      intro h
      exact Or.inl h
  | p :: ps, acc, j, d => by
      intro h
      rw [List.foldl_cons] at h
      rcases timelineScan_mem x ps _ j d h with hacc' | ⟨q, hq, hqj, hqd⟩
      · cases acc with
        | none =>
            simp only [timelineScanStep] at hacc'
            split at hacc'
            · simp only [Option.some.injEq, Prod.mk.injEq] at hacc'
              exact Or.inr ⟨p, List.mem_cons_self p ps, hacc'.1, hacc'.2⟩
            · exact absurd hacc' (by simp)
        | some jd =>
            obtain ⟨j0, d0⟩ := jd
            simp only [timelineScanStep] at hacc'
            split at hacc'
            · simp only [Option.some.injEq, Prod.mk.injEq] at hacc'
              exact Or.inr ⟨p, List.mem_cons_self p ps, hacc'.1, hacc'.2⟩
            · exact Or.inl hacc'
      · exact Or.inr ⟨q, List.mem_cons_of_mem p hq, hqj, hqd⟩

theorem timelineScanStep_none_inv (x : ℚ) (p : ℕ × ℚ) :
    ∀ j d, timelineScanStep x none p = some (j, d) → j = p.1 ∧ d = |p.2 - x| := by
  intro j d h
  simp only [timelineScanStep] at h
  split at h
  · simp only [Option.some.injEq, Prod.mk.injEq] at h
    exact ⟨h.1.symm, h.2.symm⟩
  · exact absurd h (by simp)

theorem timelineScan_first (x : ℚ) :
    ∀ (ps : List (ℕ × ℚ)) (acc : Option (ℕ × ℚ)),
      (∀ j0 d0, acc = some (j0, d0) → d0 < 30) →
      (∀ j0 d0, acc = some (j0, d0) → ∀ q ∈ ps, j0 < q.1) →
      ps.Pairwise (fun a b => a.1 < b.1) →
      ∀ j d, ps.foldl (timelineScanStep x) acc = some (j, d) →
      ∀ p ∈ ps, p.1 < j → d < |p.2 - x|
  | [], _, _, _, _ => by
      intro j d _ p hp
      cases hp
  | p :: ps, acc, hacc30, haccidx, hpair => by
      intro j d h q hq hqj
      rw [List.foldl_cons] at h
      have hpmem : ∀ r ∈ ps, p.1 < r.1 := (List.pairwise_cons.mp hpair).1
      have hpair' : ps.Pairwise (fun a b => a.1 < b.1) := (List.pairwise_cons.mp hpair).2
      have hacc30' : ∀ j1 d1, timelineScanStep x acc p = some (j1, d1) → d1 < 30 :=
        timelineScanStep_some_lt30 x acc p hacc30
      have haccidx' : ∀ j1 d1, timelineScanStep x acc p = some (j1, d1) →
          ∀ r ∈ ps, j1 < r.1 := by
        intro j1 d1 hstep r hr
        cases acc with
        | none =>
            obtain ⟨hj, _⟩ := timelineScanStep_none_inv x p j1 d1 hstep
            exact hj ▸ hpmem r hr
        | some jd =>
            obtain ⟨j0, d0⟩ := jd
            rcases timelineScanStep_idx x j0 d0 p j1 d1 hstep with h1 | h1
            · exact h1 ▸ hpmem r hr
            · exact h1 ▸ haccidx j0 d0 rfl r (List.mem_cons_of_mem p hr)
      rcases List.mem_cons.mp hq with rfl | hq'
      · by_cases hp30 : |q.2 - x| < 30
        · rcases hstep : timelineScanStep x acc q with _ | ⟨j1, d1⟩
          · have := (timelineScanStep_none x acc q).mp hstep
            exact absurd hp30 this.2
          · rw [hstep] at h
            have hj1 : j1 ≤ q.1 := by
              cases acc with
              | none =>
                  exact le_of_eq (timelineScanStep_none_inv x q j1 d1 hstep).1
              | some jd =>
                  obtain ⟨j0, d0⟩ := jd
                  rcases timelineScanStep_idx x j0 d0 q j1 d1 hstep with h1 | h1
                  · exact le_of_eq h1
                  · exact le_of_lt (h1 ▸ haccidx j0 d0 rfl q (List.mem_cons_self q ps))
            have hne : j ≠ j1 := by omega
            exact lt_of_lt_of_le (timelineScan_d_lt x ps j1 d1 j d h hne)
              (timelineScanStep_min x acc q hp30 j1 d1 hstep)
        · have hd30 : d < 30 := timelineScan_some_lt30 x ps _ hacc30' j d h
          linarith [le_of_not_lt hp30]
      · exact timelineScan_first x ps _ hacc30' haccidx' hpair' j d h q hq' hqj

theorem enumFrom_pairwise_fst :
    ∀ (l : List α) (n : ℕ),
      (List.enumFrom n l).Pairwise (fun a b => a.1 < b.1)
  | [], _ => List.Pairwise.nil
  | a :: l, n => by
      rw [List.enumFrom_cons]
      refine List.pairwise_cons.mpr ⟨?_, enumFrom_pairwise_fst l (n + 1)⟩
      intro q hq
      obtain ⟨i, b⟩ := q
      exact lt_of_lt_of_le (Nat.lt_succ_self n) (List.mem_enumFrom hq).1

theorem enum_pairwise_fst (l : List α) :
    l.enum.Pairwise (fun a b => a.1 < b.1) := by
  rw [List.enum_eq_enumFrom]
  exact enumFrom_pairwise_fst l 0

theorem mem_enum_iff (l : List α) (i : ℕ) (a : α) :
    (i, a) ∈ l.enum ↔ l[i]? = some a := by
  constructor
  · intro hmem
    rcases List.mem_iff_getElem?.mp hmem with ⟨n, hn⟩
    rw [List.getElem?_enum] at hn
    cases hx : l[n]? with
    | none => rw [hx] at hn; exact absurd hn (by simp)
    | some b =>
        rw [hx] at hn
        simp only [Option.map_some', Option.some.injEq, Prod.mk.injEq] at hn
        obtain ⟨h1, h2⟩ := hn
        subst h1
        subst h2
        exact hx
  · intro hx
    apply List.mem_iff_getElem?.mpr
    refine ⟨i, ?_⟩
    rw [List.getElem?_enum, hx]
    rfl

/-- Claim C7: for the timeline hit-test with a positive time span: a
pointer farther than 30 horizontal pixels from every projected point gives
a miss; a pointer exactly at some projected pixel gives a hit at an index
whose projected pixel equals the pointer; and any returned hit is the
first-encountered minimum of the horizontal distance: its distance is
below 30, no point is strictly closer, and every earlier index is
strictly farther. -/
theorem timeline_hit_test (c : TimelineChart) (x y : ℚ)
    (hspan : 0 < c.timeSpan) :
    ((∀ (i : ℕ) (px : ℚ),
        (c.data.map (fun p => c.projectX p.timestamp))[i]? = some px →
        30 < |px - x|) → (c.onMouseMove x y).2 = none) ∧
    ((∃ (i : ℕ) (px : ℚ),
        (c.data.map (fun p => c.projectX p.timestamp))[i]? = some px ∧ px = x) →
        ∃ (j : ℕ) (dj : ℚ), (c.onMouseMove x y).2 = some j ∧
          (c.data.map (fun p => c.projectX p.timestamp))[j]? = some dj ∧ dj = x) ∧
    (∀ (j : ℕ), (c.onMouseMove x y).2 = some j →
        ∃ (dj : ℚ), (c.data.map (fun p => c.projectX p.timestamp))[j]? = some dj ∧
          |dj - x| < 30 ∧
          (∀ (i : ℕ) (px : ℚ),
            (c.data.map (fun p => c.projectX p.timestamp))[i]? = some px →
            |dj - x| ≤ |px - x|) ∧
          (∀ (i : ℕ) (px : ℚ), i < j →
            (c.data.map (fun p => c.projectX p.timestamp))[i]? = some px →
            |dj - x| < |px - x|)) := by
  have hres : (c.onMouseMove x y).2
      = ((c.data.map (fun p => c.projectX p.timestamp)).enum.foldl
          (timelineScanStep x) none).map (fun jd => jd.1) := by
    unfold TimelineChart.onMouseMove
    rw [if_neg (not_le.mpr hspan)]
  have hacc30 : ∀ (j : ℕ) (d : ℚ), (none : Option (ℕ × ℚ)) = some (j, d) → d < 30 :=
    fun _ _ h => Option.noConfusion h
  have hargmin : ∀ j d,
      (c.data.map (fun p => c.projectX p.timestamp)).enum.foldl
          (timelineScanStep x) none = some (j, d) →
      ∃ (dj : ℚ), (c.data.map (fun p => c.projectX p.timestamp))[j]? = some dj ∧
        |dj - x| = d ∧ d < 30 ∧
        (∀ (i : ℕ) (px : ℚ),
          (c.data.map (fun p => c.projectX p.timestamp))[i]? = some px →
          d ≤ |px - x|) ∧
        (∀ (i : ℕ) (px : ℚ), i < j →
          (c.data.map (fun p => c.projectX p.timestamp))[i]? = some px →
          d < |px - x|) := by
    intro j d hfold
    rcases timelineScan_mem x _ none j d hfold with hbad | ⟨p, hp, hpj, hpd⟩
    · exact absurd hbad (by simp)
    · refine ⟨p.2, ?_, hpd, ?_, ?_, ?_⟩
      · rw [← (mem_enum_iff (c.data.map (fun p => c.projectX p.timestamp)) p.1 p.2).mp
          (by rw [Prod.mk.eta]; exact hp), hpj]
      · exact timelineScan_some_lt30 x _ none hacc30 j d hfold
      · intro i px hpx
        exact timelineScan_min x _ none hacc30 j d hfold (i, px)
          ((mem_enum_iff _ i px).mpr hpx)
      · intro i px hij hpx
        exact timelineScan_first x _ none hacc30
          (fun _ _ h => Option.noConfusion h)
          (enum_pairwise_fst _) j d hfold (i, px)
          ((mem_enum_iff _ i px).mpr hpx) hij
  refine ⟨?_, ?_, ?_⟩
  · intro hfar
    rw [hres]
    have : (c.data.map (fun p => c.projectX p.timestamp)).enum.foldl
        (timelineScanStep x) none = none := by
      rw [timelineScan_none_iff]
      refine ⟨rfl, ?_⟩
      intro p hp
      obtain ⟨i, b⟩ := p
      have hb := (mem_enum_iff _ i b).mp hp
      have := hfar i b hb
      intro hlt
      linarith
    rw [this]
    rfl
  · intro hex
    obtain ⟨i, px, hpx, hpxx⟩ := hex
    rw [hpxx] at hpx
    rcases hfold : (c.data.map (fun p => c.projectX p.timestamp)).enum.foldl
        (timelineScanStep x) none with _ | ⟨j1, d1⟩
    · have hnone := (timelineScan_none_iff x _ none).mp hfold
      have hmem := (mem_enum_iff _ i x).mpr hpx
      have hbad := hnone.2 (i, x) hmem
      simp only [sub_self, abs_zero] at hbad
      norm_num at hbad
    · rcases hargmin j1 d1 hfold with ⟨dj, hdj, hdjx, _, hmin, _⟩
      have hd0 : d1 ≤ 0 := by simpa using hmin i x hpx
      have hd1 : d1 = 0 := le_antisymm hd0 (hdjx ▸ abs_nonneg _)
      have hdjeq : dj = x := by
        have h0 : |dj - x| = 0 := by rw [hdjx, hd1]
        have h1 := abs_eq_zero.mp h0
        linarith
      exact ⟨j1, dj, by rw [hres, hfold]; rfl, hdj, hdjeq⟩
  · intro j hj
    rw [hres] at hj
    rcases Option.map_eq_some'.mp hj with ⟨⟨j1, d1⟩, hfold, hj1⟩
    obtain rfl : j1 = j := hj1
    rcases hargmin j1 d1 hfold with ⟨dj, hdj, hdjx, hlt30, hmin, hfirst⟩
    refine ⟨dj, hdj, ?_, ?_, ?_⟩
    · rw [hdjx]; exact hlt30
    · intro i px hpx
      rw [hdjx]
      exact hmin i px hpx
    · intro i px hij hpx
      rw [hdjx]
      exact hfirst i px hij hpx

theorem timeline_hit_test_witness :
    0 < timelineWitnessChart.timeSpan ∧
    (((∀ (i : ℕ) (px : ℚ),
        (timelineWitnessChart.data.map
          (fun p => timelineWitnessChart.projectX p.timestamp))[i]? = some px →
        30 < |px - 60|) → (timelineWitnessChart.onMouseMove 60 0).2 = none) ∧
     ((∃ (i : ℕ) (px : ℚ),
        (timelineWitnessChart.data.map
          (fun p => timelineWitnessChart.projectX p.timestamp))[i]? = some px ∧ px = 60) →
        ∃ (j : ℕ) (dj : ℚ), (timelineWitnessChart.onMouseMove 60 0).2 = some j ∧
          (timelineWitnessChart.data.map
            (fun p => timelineWitnessChart.projectX p.timestamp))[j]? = some dj ∧
          dj = 60) ∧
     (∀ (j : ℕ), (timelineWitnessChart.onMouseMove 60 0).2 = some j →
        ∃ (dj : ℚ),
          (timelineWitnessChart.data.map
            (fun p => timelineWitnessChart.projectX p.timestamp))[j]? = some dj ∧
          |dj - 60| < 30 ∧
          (∀ (i : ℕ) (px : ℚ),
            (timelineWitnessChart.data.map
              (fun p => timelineWitnessChart.projectX p.timestamp))[i]? = some px →
            |dj - 60| ≤ |px - 60|) ∧
          (∀ (i : ℕ) (px : ℚ), i < j →
            (timelineWitnessChart.data.map
              (fun p => timelineWitnessChart.projectX p.timestamp))[i]? = some px →
            |dj - 60| < |px - 60|))) :=
  ⟨by norm_num [timelineWitnessChart, TimelineChart.timeSpan],
   timeline_hit_test timelineWitnessChart 60 0
     (by norm_num [timelineWitnessChart, TimelineChart.timeSpan])⟩
